import Mathlib

/-!
Shallow embedding of the `server-timing-header` express middleware
(class `ServerTiming` and the exported middleware factory in `index.js`).

Modelling conventions:
- `process.hrtime()` timestamps `[seconds, nanoseconds]` are pairs of naturals;
  every operation that reads the clock takes the current timestamp as an
  explicit `now` argument.
- The JavaScript number stored in the `duration` field of a metric is modelled as an
  `Int`; `duration || fallback` (which treats the number `0` as falsy) is
  modelled by `jsOr`.
- `this.metrics` (a plain object used as an insertion-ordered map from metric
  name to metric record) is modelled as an association list `List (String × Metric)`.
- Fallible methods (which `throw new Error(...)` in the source) return
  `Except STError _`; the source validates the name before any mutation, so an
  error result leaves the session value held by the caller unchanged.
- `response` is modelled by the fields the source reads and writes: the
  `headerSent` flag, and the array of `server-timing` header values
  (`response.headers[“server-timing”]`, absent = `[]`), which `response.set`
  replaces.
-/

namespace ServerTimingModel

/-- A `process.hrtime()` timestamp `[seconds, nanoseconds]`. -/
abbrev Timestamp := Nat × Nat

/-- Error message string `INVALID_NAME` from the source. -/
def INVALID_NAME : String := "Name contain forbidden symbols"

/-- Error message string `HEADERS_SENT` from the source. -/
def HEADERS_SENT : String := "Headers was already sent and we can not add new headers"

/-- The two errors the source can throw. -/
inductive STError where
  | invalidName
  | headersSent
deriving DecidableEq, Repr

/-- One entry of `this.metrics`: the fields a metric record may carry.
`from` is a Lean keyword, so the field is called `from'`. -/
structure Metric where
  from' : Option Timestamp
  to' : Option Timestamp
  description : Option String
  duration : Option Int
deriving DecidableEq, Repr

/-- One entry of `this.hooks`: `{name, callback, index}`. -/
structure Hook where
  name : String
  callback : List (String × Metric) → List (String × Metric)
  index : Int

/-- The `ServerTiming` instance state. -/
structure ServerTiming where
  oldSpecification : Bool
  initialized : Timestamp
  sendHeaders : Bool
  metrics : List (String × Metric)
  hooks : List Hook

/-- The response collaborator: the headers-already-sent flag and the current
array of `server-timing` header values (`[]` when the header is absent). -/
structure Response where
  headerSent : Bool
  serverTiming : List String
deriving DecidableEq, Repr

/-! ### User-agent parsing (constructor lines 26-31) -/

/-- Case-sensitive scan for the substring `" Chrome/"`,
modelling `userAgent.indexOf(“ Chrome/”) > -1`. -/
def containsChromeToken : List Char → Bool
  | [] => false
  | c :: rest => List.isPrefixOf (" Chrome/".data) (c :: rest) || containsChromeToken rest

/-- Case-insensitive character comparison used by the `/i` regex flag
(ASCII folding, which is what the flag does for an ASCII pattern). -/
def ciEqChar (a b : Char) : Bool := a.toLower == b.toLower

/-- Case-insensitive prefix test (pattern, input). -/
def ciIsPrefixOf : List Char → List Char → Bool
  | [], _ => true
  | _ :: _, [] => false
  | a :: as, b :: bs => ciEqChar a b && ciIsPrefixOf as bs

/-- The characters the regex metacharacter `.` (no `s` flag) does not match. -/
def isLineTerminator (c : Char) : Bool :=
  c == Char.ofNat 10 || c == Char.ofNat 13 || c == Char.ofNat 0x2028 || c == Char.ofNat 0x2029

/-- Attempt to match the regex `/ Chrome\/([\d]+)./i` at the head of `l`,
returning the captured digit group. The literal part matches
case-insensitively; `([\d]+)` is greedy, and if no character is left for the
trailing `.` (or only a line terminator follows and `.` cannot match it) the
group backtracks by one digit; with a single digit and nothing for `.` the
match at this position fails. -/
def chromeMatchAt (l : List Char) : Option (List Char) :=
  if ciIsPrefixOf (" Chrome/".data) l then
    let rest := l.drop 8
    let run := rest.takeWhile Char.isDigit
    if run.isEmpty then none
    else
      match rest.drop run.length with
      | c :: _ =>
        if isLineTerminator c then
          if 2 ≤ run.length then some run.dropLast else none
        else some run
      | [] => if 2 ≤ run.length then some run.dropLast else none
  else none

/-- `/ Chrome\/([\d]+)./gi.exec(userAgent)`: first match, scanning left to
right, returning the captured digit group. -/
def chromeExec : List Char → Option (List Char)
  | [] => none
  | c :: rest =>
    match chromeMatchAt (c :: rest) with
    | some cap => some cap
    | none => chromeExec rest

/-- `parseInt` on a non-empty all-digit capture. -/
def digitsToNat (l : List Char) : Nat :=
  l.foldl (fun acc c => acc * 10 + (c.toNat - 48)) 0

/-- `chromeVersion`: `null` when the regex did not match. -/
def chromeVersionOf (ua : List Char) : Option Nat :=
  (chromeExec ua).map digitsToNat

/-- `this.oldSpecification` as computed by the constructor:
`isCanary = isChrome && chromeVersion > 64` (with `null > 64` being `false`),
`oldSpecification = isChrome && !isCanary`. -/
def computeOldSpecification (ua : List Char) : Bool :=
  let isChrome := containsChromeToken ua
  let isCanary := isChrome && (match chromeVersionOf ua with
    | some v => decide (64 < v)
    | none => false)
  isChrome && !isCanary

/-- The constructor `new ServerTiming(userAgent, sendHeaders)`;
`initialized` is the `process.hrtime()` value captured at construction. -/
def ServerTiming.create (userAgent : String) (sendHeaders : Bool)
    (initialized : Timestamp) : ServerTiming :=
  { oldSpecification := computeOldSpecification userAgent.data
    initialized := initialized
    sendHeaders := sendHeaders
    metrics := []
    hooks := [] }

/-! ### Name validation (`nameIsValid`, line 390-392) -/

/-- Membership in the regex character class of `nameIsValid` (bang, hash,
dollar, percent, ampersand, apostrophe, star, plus, minus, dot, caret,
underscore, backtick, pipe, tilde, digits, letters) with the `/i` flag, so
ASCII letters of both cases are included. Character codes 39 and 96 are the
apostrophe and the backtick. -/
def isTokenChar (c : Char) : Bool :=
  c.isAlphanum || c == '!' || c == '#' || c == '$' || c == '%' || c == '&' ||
  c == Char.ofNat 39 || c == '*' || c == '+' || c == '-' || c == '.' ||
  c == '^' || c == '_' || c == Char.ofNat 96 || c == '|' || c == '~'

/-- `ServerTiming.nameIsValid`: the anchored regex requires one or more
characters, all drawn from the class. -/
def nameIsValid (name : String) : Bool :=
  !name.data.isEmpty && name.data.all isTokenChar

/-! ### Duration arithmetic -/

/-- `parseInt(t[0] * 1e3 + t[1] * 1e-6, 10)`: milliseconds by integer
truncation of `seconds * 1000 + nanoseconds / 1e6`. -/
def toMillis (t : Timestamp) : Nat :=
  (t.1 * 1000000000 + t.2) / 1000000

/-- `ServerTiming.calculateDuration(from, to)`:
`Math.abs(toTime - fromTime)`. -/
def calculateDuration (f t : Timestamp) : Int :=
  (((toMillis t : Int) - (toMillis f : Int)).natAbs : Int)

/-- JavaScript `d || fallback` on an optional number: `undefined` and `0` are
falsy and select the fallback. -/
def jsOr (d : Option Int) (fallback : Int) : Int :=
  match d with
  | none => fallback
  | some v => if v = 0 then fallback else v

/-! ### Header fragment rendering -/

/-- `ServerTiming.oldStyle(name, description, duration)`. -/
def oldStyle (name : String) (description : Option String) (duration : Option Int) : String :=
  name ++
    (match duration with
      | some d => "=" ++ toString d
      | none => "") ++
    (match description with
      | some d => "; \"" ++ d ++ "\""
      | none => "")

/-- `ServerTiming.newStyle(name, description, duration)`. -/
def newStyle (name : String) (description : Option String) (duration : Option Int) : String :=
  name ++
    (match description with
      | some d => ";desc=\"" ++ d ++ "\""
      | none => "") ++
    (match duration with
      | some d => ";dur=" ++ toString d
      | none => "")

/-- `ServerTiming.buildHeader({name, description, duration, from, to}, oldSpecification)`:
`time = duration || calculateDuration(from, to)`, then one of the two styles.
In the finalization path `from` and `to` are always defined (they were
defaulted by the caller), which is how the model types them. -/
def buildHeader (name : String) (description : Option String) (duration : Option Int)
    (f t : Timestamp) (oldSpecification : Bool) : String :=
  let time := jsOr duration (calculateDuration f t)
  if oldSpecification then oldStyle name description (some time)
  else newStyle name description (some time)

/-! ### Recording operations -/

/-- A single named field written by `set`. -/
inductive MetricField where
  | fromField (t : Timestamp)
  | toField (t : Timestamp)
  | descriptionField (d : String)
  | durationField (d : Int)

/-- The metric record `{}` before a field is added. -/
def Metric.empty : Metric := ⟨none, none, none, none⟩

/-- Write one field of a metric record. -/
def Metric.setField (m : Metric) : MetricField → Metric
  | .fromField t => { m with from' := some t }
  | .toField t => { m with to' := some t }
  | .descriptionField d => { m with description := some d }
  | .durationField d => { m with duration := some d }

/-- `this.metrics[name] = { [[field]]: value }` when the key is absent (append,
object key insertion order), otherwise `this.metrics[name][field] = value`
(update in place). -/
def setEntry : List (String × Metric) → String → MetricField → List (String × Metric)
  | [], name, f => [(name, Metric.empty.setField f)]
  | (k, m) :: rest, name, f =>
    if k = name then (k, m.setField f) :: rest
    else (k, m) :: setEntry rest name f

/-- `ServerTiming.set(name, field, value)`: validates the name before touching
`this.metrics`, so the thrown error (modelled as `Except.error`) happens with
the metrics map untouched. -/
def ServerTiming.set (s : ServerTiming) (name : String) (f : MetricField) :
    Except STError ServerTiming :=
  if nameIsValid name then .ok { s with metrics := setEntry s.metrics name f }
  else .error .invalidName

/-- `ServerTiming.description(name, description)`. -/
def ServerTiming.description (s : ServerTiming) (name text : String) :
    Except STError ServerTiming :=
  s.set name (.descriptionField text)

/-- `ServerTiming.duration(name, duration)`. -/
def ServerTiming.duration (s : ServerTiming) (name : String) (ms : Int) :
    Except STError ServerTiming :=
  s.set name (.durationField ms)

/-- `ServerTiming.from(name, description)` (`from` is a Lean keyword):
records `from = now`, then `if (description) this.description(name, description)` —
the empty string is falsy and is skipped. -/
def ServerTiming.from' (s : ServerTiming) (name : String) (d? : Option String)
    (now : Timestamp) : Except STError ServerTiming :=
  match s.set name (.fromField now) with
  | .error e => .error e
  | .ok s1 =>
    match d? with
    | some d => if d = "" then .ok s1 else s1.description name d
    | none => .ok s1

/-- `ServerTiming.to(name, description)`. -/
def ServerTiming.to' (s : ServerTiming) (name : String) (d? : Option String)
    (now : Timestamp) : Except STError ServerTiming :=
  match s.set name (.toField now) with
  | .error e => .error e
  | .ok s1 =>
    match d? with
    | some d => if d = "" then .ok s1 else s1.description name d
    | none => .ok s1

/-- `this.metrics[name] = {...}` for `add`: replaces the value at an existing
key in place, otherwise appends. -/
def addEntry : List (String × Metric) → String → Metric → List (String × Metric)
  | [], name, m => [(name, m)]
  | (k, old) :: rest, name, m =>
    if k = name then (k, m) :: rest
    else (k, old) :: addEntry rest name m

/-- `ServerTiming.add(name, description, duration = 0.0)`: validates the name,
then replaces the whole metric entry with `{description, duration}`. -/
def ServerTiming.add (s : ServerTiming) (name : String) (description : String)
    (duration : Int) : Except STError ServerTiming :=
  if nameIsValid name then
    .ok { s with metrics := addEntry s.metrics name ⟨none, none, some description, some duration⟩ }
  else .error .invalidName

/-! ### Hook registry -/

/-- `ServerTiming.addHook(name, callback, callbackIndex)`: an omitted index is
replaced by `this.hooks.length + 1`, then the hook is pushed. -/
def ServerTiming.addHook (s : ServerTiming) (name : String)
    (callback : List (String × Metric) → List (String × Metric))
    (callbackIndex : Option Int) : ServerTiming :=
  let index := match callbackIndex with
    | none => (s.hooks.length : Int) + 1
    | some i => i
  { s with hooks := s.hooks ++ [⟨name, callback, index⟩] }

/-- `ServerTiming.removeHook(name)`: keeps the hooks whose name differs. -/
def ServerTiming.removeHook (s : ServerTiming) (name : String) : ServerTiming :=
  { s with hooks := s.hooks.filter (fun h => h.name != name) }

/-- The comparison `(a, b) => a.index - b.index` passed to `Array.sort`,
as the corresponding total preorder. -/
def hookLE (a b : Hook) : Prop := a.index ≤ b.index

instance : DecidableRel hookLE := fun a b =>
  inferInstanceAs (Decidable (a.index ≤ b.index))

instance : IsTotal Hook hookLE := ⟨fun a b => Int.le_total a.index b.index⟩

instance : IsTrans Hook hookLE := ⟨fun _ _ _ h1 h2 => le_trans h1 h2⟩

/-- `this.hooks.sort((a, b) => a.index - b.index)`: the JavaScript `Array.sort`
is a stable sort; modelled by the (stable) insertion sort on `hookLE`. -/
def sortHooks (l : List Hook) : List Hook :=
  l.insertionSort hookLE

/-- The hook fold of `addHeaders`: sort, then
`reduce((metrics, callback) => callback(metrics), this.metrics)`. -/
def applyHooks (hooks : List Hook) (metrics : List (String × Metric)) :
    List (String × Metric) :=
  (sortHooks hooks).foldl (fun m h => h.callback m) metrics

/-- One step of the `Object.entries(updatedMetrics).reduce(...)` collector:
`buildHeader({name, description, from: from || this.initialized,
to: to || process.hrtime(), duration}, this.oldSpecification)`. -/
def renderMetric (s : ServerTiming) (now : Timestamp) (e : String × Metric) : String :=
  buildHeader e.1 e.2.description e.2.duration
    (e.2.from'.getD s.initialized) (e.2.to'.getD now) s.oldSpecification

/-- The full fragment list a finalization of `s` renders at time `now`. -/
def renderedOf (s : ServerTiming) (now : Timestamp) : List String :=
  (applyHooks s.hooks s.metrics).map (renderMetric s now)

/-- The guard condition `!this.addHeaders` at the top of `addHeaders` tests the
method itself; the constructor binds every prototype method onto the instance,
so `this.addHeaders` is always a defined function and the guard never fires. -/
def addHeadersMethodDefined : Bool := true

/-- `ServerTiming.addHeaders(response)`. In order: the dead `!this.addHeaders`
guard; the `headerSent` check (throwing `HEADERS_SENT`); the in-place stable
sort of `this.hooks`; the hook fold; the render of each entry; the merge with
any pre-existing non-empty `server-timing` value array; `response.set` only
when the merged list is non-empty; and `this.metrics = {}`. -/
def ServerTiming.addHeaders (s : ServerTiming) (resp : Response) (now : Timestamp) :
    Except STError (ServerTiming × Response) :=
  if addHeadersMethodDefined = false then .ok (s, resp)
  else if resp.headerSent then .error .headersSent
  else
    let sorted := sortHooks s.hooks
    let updatedMetrics := sorted.foldl (fun m h => h.callback m) s.metrics
    let fragments := updatedMetrics.map (renderMetric s now)
    let merged := if resp.serverTiming ≠ [] then resp.serverTiming ++ fragments else fragments
    let resp' := if merged ≠ [] then { resp with serverTiming := merged } else resp
    .ok ({ s with metrics := [], hooks := sorted }, resp')

/-- `ServerTiming.calculateDurationSmart(metric)`:
default the labels, then `metric.duration || calculateDuration(...)`. -/
def ServerTiming.calculateDurationSmart (s : ServerTiming) (now : Timestamp)
    (metric : Metric) : Int :=
  let fromLabel := metric.from'.getD s.initialized
  let toLabel := metric.to'.getD now
  jsOr metric.duration (calculateDuration fromLabel toLabel)

/-! ### The exported middleware factory -/

/-- What one invocation of the middleware does to a request: attach a fresh
session, and install the `onHeaders` subscription only when `sendHeaders`. -/
structure MiddlewareResult where
  session : ServerTiming
  subscriptionInstalled : Bool

/-- `module.exports = ({sendHeaders = true} = {}) => (request, response, next) => ...`. -/
def serverTimingMiddleware (sendHeaders : Bool) (userAgent : String)
    (now : Timestamp) : MiddlewareResult :=
  { session := ServerTiming.create userAgent sendHeaders now
    subscriptionInstalled := sendHeaders }

/-! ### Concrete sample values used to instantiate the theorems -/

/-- A metric carrying only an explicit duration of 7. -/
def mDur7 : Metric := { from' := none, to' := none, description := none, duration := some 7 }

/-- A session with no recorded metrics, current wire format. -/
def sEmpty : ServerTiming :=
  { oldSpecification := false, initialized := (0, 0), sendHeaders := true, metrics := [], hooks := [] }

/-- A session holding the single metric `n` with explicit duration 7. -/
def sOne : ServerTiming :=
  { sEmpty with metrics := [("n", mDur7)] }

/-- The session `sOne` constructed with `sendHeaders = false`. -/
def sOneNoSend : ServerTiming :=
  { sOne with sendHeaders := false }

/-- A response with headers not yet sent and no `server-timing` values. -/
def rEmpty : Response := { headerSent := false, serverTiming := [] }

/-! ### Shared lemmas about finalization -/

/-- On a response whose headers are not yet sent, `addHeaders` succeeds,
clears the metrics, leaves the hooks stable-sorted in place, and sets the
`server-timing` value list to the previous values followed by the newly
rendered fragments (when both are empty no write happens and the response is
returned unchanged, which coincides with appending nothing). -/
theorem addHeaders_spec (s : ServerTiming) (resp : Response) (now : Timestamp)
    (h : resp.headerSent = false) :
    s.addHeaders resp now =
      .ok ({ s with metrics := [], hooks := sortHooks s.hooks },
           { resp with serverTiming := resp.serverTiming ++ renderedOf s now }) := by
  unfold ServerTiming.addHeaders addHeadersMethodDefined
  obtain ⟨hs, st⟩ := resp
  simp only at h
  subst h
  simp only [Bool.false_eq_true, if_false, renderedOf, applyHooks]
  cases st with
  | nil =>
    cases h2 : ((sortHooks s.hooks).foldl (fun m h => h.callback m) s.metrics).map
        (renderMetric s now) with
    | nil => simp [h2]
    | cons a t => simp [h2]
  | cons v vs => simp

/-- Finalization on a response whose headers are already sent throws before
doing anything else. -/
theorem addHeaders_err (s : ServerTiming) (resp : Response) (now : Timestamp)
    (h : resp.headerSent = true) :
    s.addHeaders resp now = .error .headersSent := by
  unfold ServerTiming.addHeaders addHeadersMethodDefined
  rw [h]
  simp

/-! ### C4 -/

/-- C4: finalization on a response whose headers-already-sent flag is true
fails with the `HEADERS_SENT` error; no successful result (and hence no
header write and no metrics clearing) is produced. -/
theorem C4_already_sent (s : ServerTiming) (resp : Response) (now : Timestamp)
    (h : resp.headerSent = true) :
    s.addHeaders resp now = .error .headersSent ∧
      ∀ (s' : ServerTiming) (resp' : Response), s.addHeaders resp now ≠ .ok (s', resp') := by
  have he := addHeaders_err s resp now h
  exact ⟨he, fun s' resp' hok => by rw [he] at hok; exact Except.noConfusion hok⟩

/-- Witness for C4 at a concrete session and response. -/
theorem C4_already_sent_witness :
    ServerTiming.addHeaders
        { oldSpecification := false, initialized := (0, 0), sendHeaders := true,
          metrics := [], hooks := [] }
        { headerSent := true, serverTiming := [] } (1, 0) = .error .headersSent ∧
      ∀ (s' : ServerTiming) (resp' : Response),
        ServerTiming.addHeaders
          { oldSpecification := false, initialized := (0, 0), sendHeaders := true,
            metrics := [], hooks := [] }
          { headerSent := true, serverTiming := [] } (1, 0) ≠ .ok (s', resp') :=
  C4_already_sent _ _ _ rfl

/-! ### C8 -/

/-- C8: when `server-timing` values are already present on the response,
finalization writes the pre-existing values first, in their original order,
followed by the newly rendered fragments. -/
theorem C8_append_existing (s : ServerTiming) (resp : Response) (now : Timestamp)
    (h : resp.headerSent = false) (_hne : resp.serverTiming ≠ []) :
    ∃ s', s.addHeaders resp now =
      .ok (s', { resp with serverTiming := resp.serverTiming ++ renderedOf s now }) :=
  ⟨_, addHeaders_spec s resp now h⟩

/-- Witness for C8: an upstream fragment is preserved in front of the new one. -/
theorem C8_append_existing_witness :
    ∃ s', ServerTiming.addHeaders
        { oldSpecification := false, initialized := (0, 0), sendHeaders := true,
          metrics := [("n", { from' := none, to' := none, description := none, duration := some 7 })],
          hooks := [] }
        { headerSent := false, serverTiming := ["up;dur=1"] } (1, 0) =
      .ok (s', { headerSent := false,
                 serverTiming := ["up;dur=1"] ++
                   renderedOf
                     { oldSpecification := false, initialized := (0, 0), sendHeaders := true,
                       metrics := [("n", { from' := none, to' := none, description := none, duration := some 7 })],
                       hooks := [] } (1, 0) }) :=
  C8_append_existing _ _ _ rfl (by decide)

/-! ### C2 -/

/-- C2 counterexample: for a metric with explicit `duration = 0`, the claim
predicts `calculateDurationSmart` returns `0` and `buildHeader` emits `dur=0`;
instead `0` is falsy under `||`, so both fall back to the `from`/`to`
computation and produce `1000`. -/
theorem C2_counterexample :
    ServerTiming.calculateDurationSmart
        { oldSpecification := false, initialized := (0, 0), sendHeaders := true,
          metrics := [], hooks := [] }
        (9, 9)
        { from' := some (0, 0), to' := some (1, 0), description := none, duration := some 0 } =
      1000 ∧
    (1000 : Int) ≠ 0 ∧
    buildHeader "a" none (some 0) (0, 0) (1, 0) false = "a;dur=1000" := by
  refine ⟨rfl, by decide, rfl⟩

/-- C2 amended: an explicit NONZERO duration takes precedence: `buildHeader`
emits exactly that duration (for either wire format, independently of the
timestamps), and `calculateDurationSmart` returns exactly that duration
independently of `from`, `to`, `initialized` and the current time. An explicit
duration of `0` is falsy under `||` and falls back to the `from`/`to`
computation instead. -/
theorem C2_duration_overrides (d : Int) (hd : d ≠ 0) :
    (∀ (s : ServerTiming) (now : Timestamp) (m : Metric), m.duration = some d →
        s.calculateDurationSmart now m = d) ∧
    (∀ (name : String) (desc : Option String) (f t f' t' : Timestamp) (old : Bool),
        buildHeader name desc (some d) f t old = buildHeader name desc (some d) f' t' old) ∧
    (∀ (name : String) (desc : Option String) (f t : Timestamp) (old : Bool),
        buildHeader name desc (some d) f t old =
          if old then oldStyle name desc (some d) else newStyle name desc (some d)) := by
  refine ⟨?_, ?_, ?_⟩
  · intro s now m hm
    simp [ServerTiming.calculateDurationSmart, hm, jsOr, hd]
  · intro name desc f t f' t' old
    simp [buildHeader, jsOr, hd]
  · intro name desc f t old
    simp [buildHeader, jsOr, hd]

/-- Witness for C2 amended, at `d = 5`. -/
theorem C2_duration_overrides_witness :
    ServerTiming.calculateDurationSmart
        { oldSpecification := false, initialized := (0, 0), sendHeaders := true,
          metrics := [], hooks := [] }
        (9, 9)
        { from' := some (3, 0), to' := some (7, 0), description := none, duration := some 5 } =
      5 ∧
    buildHeader "n" none (some 5) (1, 2) (3, 4) false =
      buildHeader "n" none (some 5) (8, 9) (10, 11) false :=
  ⟨(C2_duration_overrides 5 (by decide)).1 _ _ _ rfl,
   (C2_duration_overrides 5 (by decide)).2.1 "n" none (1, 2) (3, 4) (8, 9) (10, 11) false⟩

/-! ### C3 -/

/-- C3 counterexample: the user-agent string `" Chrome/x"` contains the Chrome
token but the version regex produces no match (no digits follow the slash);
the claim says the legacy flag is then false, but the source computes
`isCanary = isChrome && (null > 64) = false` and hence
`oldSpecification = isChrome && !isCanary = true`. -/
theorem C3_counterexample :
    containsChromeToken " Chrome/x".data = true ∧
    chromeVersionOf " Chrome/x".data = none ∧
    computeOldSpecification " Chrome/x".data = true := by
  refine ⟨by decide, by decide, by decide⟩

/-- C3 amended: the legacy flag is true iff the user-agent contains the
`" Chrome/"` token and every version the regex parses is at most 64 — so when
the token is present but the regex produces NO match, the flag is true
(legacy), not false. -/
theorem C3_legacy_iff (ua : String) :
    computeOldSpecification ua.data = true ↔
      (containsChromeToken ua.data = true ∧
        ∀ v, chromeVersionOf ua.data = some v → v ≤ 64) := by
  unfold computeOldSpecification
  cases hc : containsChromeToken ua.data
  · simp
  · cases hv : chromeVersionOf ua.data with
    | none => simp [hv]
    | some v =>
      simp only [hv, Bool.true_and, Bool.not_eq_true]
      constructor
      · intro hle
        refine ⟨trivial, fun w hw => ?_⟩
        obtain rfl : v = w := by injection hw
        simpa using hle
      · intro hall
        have := hall.2 v rfl
        simpa using this

/-- Witness for C3 amended at the user-agent string of a Chrome 62 client. -/
theorem C3_legacy_iff_witness :
    computeOldSpecification " Chrome/62.0.3202.94 ".data = true ↔
      (containsChromeToken " Chrome/62.0.3202.94 ".data = true ∧
        ∀ v, chromeVersionOf " Chrome/62.0.3202.94 ".data = some v → v ≤ 64) :=
  C3_legacy_iff " Chrome/62.0.3202.94 "

/-! ### C1 -/

/-- C1 counterexample: a metric whose `to` timestamp precedes its `from`
timestamp by one second (and which carries no explicit duration). The claim
predicts the rendered duration is the signed value
`toMillis(to) - toMillis(from) = -1000`; the source's `calculateDuration`
applies `Math.abs`, so the finalized fragment carries `dur=1000`. -/
theorem C1_counterexample :
    (ServerTiming.addHeaders
        { oldSpecification := false, initialized := (0, 0), sendHeaders := true,
          metrics := [("a", { from' := some (1, 0), to' := some (0, 0),
                              description := none, duration := none })],
          hooks := [] }
        { headerSent := false, serverTiming := [] } (5, 0) =
      .ok ({ oldSpecification := false, initialized := (0, 0), sendHeaders := true,
             metrics := [], hooks := [] },
           { headerSent := false, serverTiming := ["a;dur=1000"] })) ∧
    ("a;dur=1000" : String) ≠
      "a;dur=" ++ toString ((toMillis (0, 0) : Int) - (toMillis (1, 0) : Int)) := by
  constructor
  · rfl
  · decide

/-- C1 amended: for a metric with both timestamps recorded and no explicit
duration, the fragment rendered at finalization carries the ABSOLUTE value
`|toMillis(to) - toMillis(from)|` as its duration (in either wire format); in
particular the emitted duration is never negative, even when `to` precedes
`from`. -/
theorem C1_abs_duration (s : ServerTiming) (resp : Response) (now f t : Timestamp)
    (name : String) (desc : Option String)
    (hm : s.metrics = [(name, { from' := some f, to' := some t,
                                description := desc, duration := none })])
    (hh : s.hooks = []) (hr : resp.headerSent = false) :
    ∃ s', s.addHeaders resp now =
      .ok (s', { resp with serverTiming := resp.serverTiming ++
        [if s.oldSpecification then
            oldStyle name desc (some (((toMillis t : Int) - (toMillis f : Int)).natAbs : Int))
          else
            newStyle name desc (some (((toMillis t : Int) - (toMillis f : Int)).natAbs : Int))] }) := by
  have hrend : renderedOf s now =
      [if s.oldSpecification then
          oldStyle name desc (some (((toMillis t : Int) - (toMillis f : Int)).natAbs : Int))
        else
          newStyle name desc (some (((toMillis t : Int) - (toMillis f : Int)).natAbs : Int))] := by
    simp [renderedOf, applyHooks, sortHooks, hh, hm, List.insertionSort, renderMetric,
      buildHeader, jsOr, calculateDuration]
  exact ⟨_, by rw [addHeaders_spec s resp now hr, hrend]⟩

/-- Witness for C1 amended: `from = (1, 0)`, `to = (0, 0)` renders `dur=1000`. -/
theorem C1_abs_duration_witness :
    ∃ s', ServerTiming.addHeaders
        { oldSpecification := false, initialized := (0, 0), sendHeaders := true,
          metrics := [("a", { from' := some (1, 0), to' := some (0, 0),
                              description := none, duration := none })],
          hooks := [] }
        { headerSent := false, serverTiming := [] } (5, 0) =
      .ok (s', { headerSent := false, serverTiming := [] ++
        [if (false : Bool) then
            oldStyle "a" none (some (((toMillis (0, 0) : Int) - (toMillis (1, 0) : Int)).natAbs : Int))
          else
            newStyle "a" none (some (((toMillis (0, 0) : Int) - (toMillis (1, 0) : Int)).natAbs : Int))] }) :=
  C1_abs_duration _ _ (5, 0) (1, 0) (0, 0) "a" none rfl rfl rfl

/-! ### C5 -/

/-- A valid name makes `set` succeed, updating only the metrics map. -/
theorem set_ok (s : ServerTiming) (name : String) (f : MetricField)
    (h : nameIsValid name = true) :
    s.set name f = .ok { s with metrics := setEntry s.metrics name f } := by
  simp [ServerTiming.set, h]

/-- An invalid name makes `set` fail before touching anything. -/
theorem set_err (s : ServerTiming) (name : String) (f : MetricField)
    (h : nameIsValid name = false) :
    s.set name f = .error .invalidName := by
  simp [ServerTiming.set, h]

/-- C5: each mutating recording call fails with the `INVALID_NAME` error
exactly when the name fails the token grammar, and succeeds otherwise; the
validation happens before any mutation, so an error leaves the metrics map
unchanged (in particular `from`/`to` write no description on failure). -/
theorem C5_invalid_name (s : ServerTiming) (name : String) (d? : Option String)
    (txt : String) (ms : Int) (desc : String) (dur : Int) (now : Timestamp) :
    (nameIsValid name = false →
      s.from' name d? now = .error .invalidName ∧
      s.to' name d? now = .error .invalidName ∧
      s.description name txt = .error .invalidName ∧
      s.duration name ms = .error .invalidName ∧
      s.add name desc dur = .error .invalidName) ∧
    (nameIsValid name = true →
      (∃ s1, s.from' name d? now = .ok s1) ∧
      (∃ s1, s.to' name d? now = .ok s1) ∧
      (∃ s1, s.description name txt = .ok s1) ∧
      (∃ s1, s.duration name ms = .ok s1) ∧
      (∃ s1, s.add name desc dur = .ok s1)) := by
  constructor
  · intro h
    refine ⟨?_, ?_, ?_, ?_, ?_⟩
    · unfold ServerTiming.from'
      rw [set_err _ _ _ h]
    · unfold ServerTiming.to'
      rw [set_err _ _ _ h]
    · exact set_err _ _ _ h
    · exact set_err _ _ _ h
    · simp [ServerTiming.add, h]
  · intro h
    refine ⟨?_, ?_, ?_, ?_, ?_⟩
    · cases d? with
      | none =>
        refine ⟨{ s with metrics := setEntry s.metrics name (.fromField now) }, ?_⟩
        unfold ServerTiming.from'
        rw [set_ok _ _ _ h]
      | some d =>
        by_cases hd : d = ""
        · refine ⟨{ s with metrics := setEntry s.metrics name (.fromField now) }, ?_⟩
          unfold ServerTiming.from'
          rw [set_ok _ _ _ h]
          subst hd
          rfl
        · refine ⟨{ s with metrics := setEntry (setEntry s.metrics name (.fromField now)) name (.descriptionField d) }, ?_⟩
          unfold ServerTiming.from'
          rw [set_ok _ _ _ h]
          simp only [if_neg hd]
          exact set_ok _ _ _ h
    · cases d? with
      | none =>
        refine ⟨{ s with metrics := setEntry s.metrics name (.toField now) }, ?_⟩
        unfold ServerTiming.to'
        rw [set_ok _ _ _ h]
      | some d =>
        by_cases hd : d = ""
        · refine ⟨{ s with metrics := setEntry s.metrics name (.toField now) }, ?_⟩
          unfold ServerTiming.to'
          rw [set_ok _ _ _ h]
          subst hd
          rfl
        · refine ⟨{ s with metrics := setEntry (setEntry s.metrics name (.toField now)) name (.descriptionField d) }, ?_⟩
          unfold ServerTiming.to'
          rw [set_ok _ _ _ h]
          simp only [if_neg hd]
          exact set_ok _ _ _ h
    · exact ⟨_, set_ok _ _ _ h⟩
    · exact ⟨_, set_ok _ _ _ h⟩
    · refine ⟨{ s with metrics := addEntry s.metrics name ⟨none, none, some desc, some dur⟩ }, ?_⟩
      simp [ServerTiming.add, h]

/-- Witness for C5 at the invalid name `"a b"` (whitespace) and, for the
success side, the valid token `"db"`. -/
theorem C5_invalid_name_witness :
    (ServerTiming.from'
        { oldSpecification := false, initialized := (0, 0), sendHeaders := true,
          metrics := [], hooks := [] } "a b" (some "d") (1, 0) = .error .invalidName ∧
      ServerTiming.to'
        { oldSpecification := false, initialized := (0, 0), sendHeaders := true,
          metrics := [], hooks := [] } "a b" (some "d") (1, 0) = .error .invalidName ∧
      ServerTiming.description
        { oldSpecification := false, initialized := (0, 0), sendHeaders := true,
          metrics := [], hooks := [] } "a b" "d" = .error .invalidName ∧
      ServerTiming.duration
        { oldSpecification := false, initialized := (0, 0), sendHeaders := true,
          metrics := [], hooks := [] } "a b" 3 = .error .invalidName ∧
      ServerTiming.add
        { oldSpecification := false, initialized := (0, 0), sendHeaders := true,
          metrics := [], hooks := [] } "a b" "d" 3 = .error .invalidName) ∧
    (∃ s1, ServerTiming.add
        { oldSpecification := false, initialized := (0, 0), sendHeaders := true,
          metrics := [], hooks := [] } "db" "d" 3 = .ok s1) :=
  ⟨(C5_invalid_name _ "a b" (some "d") "d" 3 "d" 3 (1, 0)).1 (by decide),
   ((C5_invalid_name _ "db" (some "d") "d" 3 "d" 3 (1, 0)).2 (by decide)).2.2.2.2⟩

/-! ### C6 -/

/-- Filter-stability of `orderedInsert` for the hook order: inserting `a`
prepends it to the class of hooks sharing its index (all of which sit behind
the insertion point) and leaves every other index class unchanged. -/
theorem filter_orderedInsert (k : Int) (a : Hook) :
    ∀ s : List Hook, (s.orderedInsert hookLE a).filter (fun h => h.index == k) =
      (if a.index == k then [a] else []) ++ s.filter (fun h => h.index == k) := by
  intro s
  induction s with
  | nil => by_cases hak : a.index == k <;> simp [List.filter, hak]
  | cons b t ih =>
    by_cases hab : hookLE a b
    · rw [List.orderedInsert_of_le _ _ hab]
      by_cases hak : a.index == k <;> simp [List.filter_cons, hak]
    · have hba : b.index < a.index := by
        have := hab
        simp only [hookLE, not_le] at this
        exact this
      rw [show List.orderedInsert hookLE a (b :: t) = b :: List.orderedInsert hookLE a t from
        if_neg hab]
      by_cases hak : a.index == k
      · have hbk : (b.index == k) = false := by
          have h1 : a.index = k := by simpa using hak
          simp only [beq_eq_false_iff_ne, ne_eq]
          omega
        simp [List.filter_cons, hbk, ih, hak]
      · simp [List.filter_cons, ih, hak]

/-- Stability of the hook sort: for every index value `k`, the hooks with
index `k` appear in the sorted list in their original insertion order. -/
theorem filter_sortHooks (k : Int) :
    ∀ l : List Hook, (sortHooks l).filter (fun h => h.index == k) =
      l.filter (fun h => h.index == k) := by
  intro l
  induction l with
  | nil => rfl
  | cons a t ih =>
    show (List.orderedInsert hookLE a (t.insertionSort hookLE)).filter _ = _
    rw [filter_orderedInsert k a]
    rw [show (t.insertionSort hookLE).filter (fun h => h.index == k) =
      t.filter (fun h => h.index == k) from ih]
    by_cases hak : a.index == k <;> simp [List.filter_cons, hak]

/-- In a list sorted by hook index, any member with a strictly smaller index
splits the list in front of any member with a larger index. -/
theorem sorted_decomp (h1 h2 : Hook) (hlt : h2.index < h1.index) :
    ∀ l : List Hook, List.Sorted hookLE l → h1 ∈ l → h2 ∈ l →
      ∃ A B, l = A ++ h2 :: B ∧ h1 ∈ B := by
  intro l
  induction l with
  | nil => intro _ m1 _; cases m1
  | cons x xs ih =>
    intro hs m1 m2
    rw [List.sorted_cons] at hs
    rcases List.mem_cons.mp m2 with rfl | h2xs
    · rcases List.mem_cons.mp m1 with h1x | h1xs
      · exact absurd hlt (by rw [h1x]; exact lt_irrefl _)
      · exact ⟨[], xs, rfl, h1xs⟩
    · rcases List.mem_cons.mp m1 with rfl | h1xs
      · exact absurd (hs.1 h2 h2xs) (not_le.mpr hlt)
      · obtain ⟨A, B, heq, hmem⟩ := ih hs.2 h1xs h2xs
        exact ⟨x :: A, B, by rw [heq, List.cons_append], hmem⟩

/-- C6: hook transforms run at finalization in ascending index order, with the
sort stable (ties keep insertion order); `addHook` without an explicit index
assigns `hooks.length + 1`; a hook whose index is strictly smaller than that
of any other registered hook (in particular an earlier default-indexed one)
runs before it; and the metrics that get serialized are the fold of the sorted
transforms over the accumulated metrics. -/
theorem C6_hook_order :
    (∀ (s : ServerTiming) (n : String) (cb : List (String × Metric) → List (String × Metric)),
        (s.addHook n cb none).hooks = s.hooks ++ [⟨n, cb, (s.hooks.length : Int) + 1⟩]) ∧
    (∀ l : List Hook, (sortHooks l).Perm l ∧ List.Sorted hookLE (sortHooks l) ∧
        ∀ k : Int, (sortHooks l).filter (fun h => h.index == k) =
          l.filter (fun h => h.index == k)) ∧
    (∀ (l : List Hook) (h1 h2 : Hook), h1 ∈ l → h2 ∈ l → h2.index < h1.index →
        ∃ A B, sortHooks l = A ++ h2 :: B ∧ h1 ∈ B) ∧
    (∀ (s : ServerTiming) (resp : Response) (now : Timestamp), resp.headerSent = false →
        ∃ s', s.addHeaders resp now = .ok (s', { resp with serverTiming := resp.serverTiming ++ ((sortHooks s.hooks).foldl (fun m h => h.callback m) s.metrics).map (renderMetric s now) })) := by
  refine ⟨?_, ?_, ?_, ?_⟩
  · intro s n cb
    rfl
  · intro l
    exact ⟨List.perm_insertionSort hookLE l, List.sorted_insertionSort hookLE l,
      fun k => filter_sortHooks k l⟩
  · intro l h1 h2 m1 m2 hlt
    exact sorted_decomp h1 h2 hlt (sortHooks l) (List.sorted_insertionSort hookLE l)
      ((List.perm_insertionSort hookLE l).mem_iff.mpr m1)
      ((List.perm_insertionSort hookLE l).mem_iff.mpr m2)
  · intro s resp now h
    exact ⟨_, addHeaders_spec s resp now h⟩

/-- Witness for C6: with hook `a` at default-style index 1 and a later hook
`b` given explicit index 0, the sort places `b` strictly before `a`. -/
theorem C6_hook_order_witness :
    ∃ A B, sortHooks [⟨"a", id, 1⟩, ⟨"b", id, 0⟩] = A ++ (⟨"b", id, 0⟩ : Hook) :: B ∧
      (⟨"a", id, 1⟩ : Hook) ∈ B :=
  C6_hook_order.2.2.1 [⟨"a", id, 1⟩, ⟨"b", id, 0⟩] ⟨"a", id, 1⟩ ⟨"b", id, 0⟩
    (List.mem_cons_self _ _) (List.mem_cons_of_mem _ (List.mem_cons_self _ _)) (by decide)

/-! ### C7 -/

/-- C7: a successful finalization sets the header value list to the previous
values followed by the rendered fragments — so an empty rendered list leaves
the response unchanged — always clears the metrics map, and only re-orders
(never adds or removes) hooks; consequently a second finalization whose hooks
produce no entries from the empty map emits zero fragments and leaves the
response as the first finalization left it. -/
theorem C7_finalize_effects (s : ServerTiming) (resp : Response) (now : Timestamp)
    (h : resp.headerSent = false) :
    ∃ s', s.addHeaders resp now = .ok (s', { resp with serverTiming := resp.serverTiming ++ renderedOf s now }) ∧
      s'.metrics = [] ∧
      s'.hooks.Perm s.hooks ∧
      (renderedOf s now = [] → s.addHeaders resp now = .ok (s', resp)) ∧
      (∀ now2 : Timestamp, applyHooks s'.hooks [] = [] →
        ∃ s2, s'.addHeaders { resp with serverTiming := resp.serverTiming ++ renderedOf s now } now2 = .ok (s2, { resp with serverTiming := resp.serverTiming ++ renderedOf s now })) := by
  refine ⟨{ s with metrics := [], hooks := sortHooks s.hooks },
    addHeaders_spec s resp now h, rfl, List.perm_insertionSort hookLE s.hooks, ?_, ?_⟩
  · intro hempty
    rw [addHeaders_spec s resp now h, hempty, List.append_nil]
  · intro now2 hap
    have hap' : applyHooks (sortHooks s.hooks) ([] : List (String × Metric)) = [] := hap
    have hr2 : renderedOf { s with metrics := [], hooks := sortHooks s.hooks } now2 = [] := by
      show (applyHooks (sortHooks s.hooks) []).map _ = []
      rw [hap']
      rfl
    refine ⟨{ s with metrics := [], hooks := sortHooks (sortHooks s.hooks) }, ?_⟩
    rw [addHeaders_spec { s with metrics := [], hooks := sortHooks s.hooks } { resp with serverTiming := resp.serverTiming ++ renderedOf s now } now2 h, hr2, List.append_nil]

/-- Witness for C7 at a concrete single-metric session. -/
theorem C7_finalize_effects_witness :
    ∃ s', sOne.addHeaders rEmpty (1, 0) = .ok (s', { rEmpty with serverTiming := rEmpty.serverTiming ++ renderedOf sOne (1, 0) }) ∧
      s'.metrics = [] ∧ s'.hooks.Perm sOne.hooks := by
  obtain ⟨s', h1, h2, h3, _, _⟩ := C7_finalize_effects sOne rEmpty (1, 0) rfl
  exact ⟨s', h1, h2, h3⟩

/-! ### C9 -/

/-- Looking up the key written by `addEntry` returns the freshly stored
metric record. -/
theorem lookup_addEntry (l : List (String × Metric)) (n : String) (m : Metric) :
    (addEntry l n m).lookup n = some m := by
  induction l with
  | nil => simp [addEntry, List.lookup]
  | cons p t ih =>
    obtain ⟨k, old⟩ := p
    by_cases hk : k = n
    · subst hk
      simp [addEntry, List.lookup]
    · have hnk : (n == k) = false := beq_eq_false_iff_ne.mpr (Ne.symm hk)
      simp [addEntry, hk, List.lookup, hnk, ih]

/-- Rendering of the current-format fragment for an explicit duration 123. -/
theorem newStyle_dur123 (n d : String) :
    newStyle n (some d) (some 123) = n ++ ";desc=\"" ++ d ++ "\";dur=123" := by
  have h123 : (toString (123 : Int)).data = ['1', '2', '3'] := rfl
  apply String.ext
  simp only [newStyle, String.data_append, List.append_assoc, h123]
  simp [List.cons_append]

/-- Rendering of the legacy-format fragment for an explicit duration 123. -/
theorem oldStyle_dur123 (n d : String) :
    oldStyle n (some d) (some 123) = n ++ "=123; \"" ++ d ++ "\"" := by
  have h123 : (toString (123 : Int)).data = ['1', '2', '3'] := rfl
  apply String.ext
  simp only [oldStyle, String.data_append, List.append_assoc, h123]
  simp [List.cons_append]

/-- C9: `add(n, d, 123)` followed immediately by finalization (no hooks)
yields exactly the fragment `n;desc="d";dur=123` in the current format and
`n=123; "d"` in the legacy format; and `add` replaces the whole entry for
`n`, dropping any earlier timestamps. -/
theorem C9_add_then_finalize (n d : String) (hn : nameIsValid n = true)
    (s : ServerTiming) (hh : s.hooks = []) (hm : s.metrics = [])
    (resp : Response) (hr : resp.headerSent = false) (hrs : resp.serverTiming = [])
    (now : Timestamp) :
    (∃ s1 s2, s.add n d 123 = .ok s1 ∧
      s1.addHeaders resp now = .ok (s2, { headerSent := false, serverTiming := [if s.oldSpecification then n ++ "=123; \"" ++ d ++ "\"" else n ++ ";desc=\"" ++ d ++ "\";dur=123"] })) ∧
    (∀ sx : ServerTiming, ∃ sy, sx.add n d 123 = .ok sy ∧
      sy.metrics.lookup n = some ⟨none, none, some d, some 123⟩) := by
  obtain ⟨rh, rs⟩ := resp
  simp only at hr hrs
  subst hr
  subst hrs
  constructor
  · refine ⟨{ s with metrics := addEntry s.metrics n ⟨none, none, some d, some 123⟩ }, { s with metrics := [], hooks := sortHooks s.hooks }, ?_, ?_⟩
    · simp [ServerTiming.add, hn]
    · have h1 : renderedOf { s with metrics := addEntry s.metrics n ⟨none, none, some d, some 123⟩ } now =
          [if s.oldSpecification then n ++ "=123; \"" ++ d ++ "\"" else n ++ ";desc=\"" ++ d ++ "\";dur=123"] := by
        simp only [renderedOf, applyHooks, sortHooks, hh, hm]
        simp [addEntry, renderMetric, buildHeader, jsOr]
        by_cases ho : s.oldSpecification <;>
          simp [ho, oldStyle_dur123, newStyle_dur123]
      rw [addHeaders_spec { s with metrics := addEntry s.metrics n ⟨none, none, some d, some 123⟩ } { headerSent := false, serverTiming := [] } now rfl, h1]
      rfl
  · intro sx
    refine ⟨{ sx with metrics := addEntry sx.metrics n ⟨none, none, some d, some 123⟩ }, ?_, ?_⟩
    · simp [ServerTiming.add, hn]
    · exact lookup_addEntry sx.metrics n _

/-- Witness for C9 at name `"n"`, description `"d"`, current format. -/
theorem C9_add_then_finalize_witness :
    (∃ s1 s2, sEmpty.add "n" "d" 123 = .ok s1 ∧
      s1.addHeaders rEmpty (1, 0) =
        .ok (s2, { headerSent := false, serverTiming := [if sEmpty.oldSpecification then "n" ++ "=123; \"" ++ "d" ++ "\"" else "n" ++ ";desc=\"" ++ "d" ++ "\";dur=123"] })) ∧
    (∀ sx : ServerTiming, ∃ sy, sx.add "n" "d" 123 = .ok sy ∧
      sy.metrics.lookup "n" = some ⟨none, none, some "d", some 123⟩) :=
  C9_add_then_finalize "n" "d" (by decide) sEmpty rfl rfl rEmpty rfl rfl (1, 0)

/-! ### C10 -/

/-- C10: `sendHeaders = false` only suppresses the middleware lifecycle
subscription; the dead `!this.addHeaders` guard never fires (the bound method
is always defined), `addHeaders` never reads the stored flag (its response
effect is identical for both flag values), and a direct call on an unsent
response still renders the metrics and writes the header. -/
theorem C10_sendHeaders_independent :
    addHeadersMethodDefined = true ∧
    (∀ (sendHeaders : Bool) (ua : String) (now : Timestamp),
        (serverTimingMiddleware sendHeaders ua now).subscriptionInstalled = sendHeaders) ∧
    (∀ (s : ServerTiming) (b1 b2 : Bool) (resp : Response) (now : Timestamp),
        (ServerTiming.addHeaders { s with sendHeaders := b1 } resp now).map (fun p => p.2) =
          (ServerTiming.addHeaders { s with sendHeaders := b2 } resp now).map (fun p => p.2)) ∧
    (∀ (s : ServerTiming) (resp : Response) (now : Timestamp),
        s.sendHeaders = false → resp.headerSent = false →
        ∃ s', s.addHeaders resp now = .ok (s', { resp with serverTiming := resp.serverTiming ++ renderedOf s now })) := by
  refine ⟨rfl, fun _ _ _ => rfl, ?_, ?_⟩
  · intro s b1 b2 resp now
    cases hrh : resp.headerSent
    · rw [addHeaders_spec _ _ _ hrh, addHeaders_spec _ _ _ hrh]
      rfl
    · rw [addHeaders_err _ _ _ hrh, addHeaders_err _ _ _ hrh]
  · intro s resp now hsend hrh
    exact ⟨_, addHeaders_spec s resp now hrh⟩

/-- Witness for C10: a session created with `sendHeaders = false` still writes
the header on a direct `addHeaders` call. -/
theorem C10_sendHeaders_independent_witness :
    ∃ s', sOneNoSend.addHeaders rEmpty (1, 0) =
      .ok (s', { rEmpty with serverTiming := rEmpty.serverTiming ++ renderedOf sOneNoSend (1, 0) }) :=
  C10_sendHeaders_independent.2.2.2 sOneNoSend rEmpty (1, 0) rfl rfl

end ServerTimingModel
